import Mathlib

/-!
Verification of the reference-index subsystem and the notification dispatch
helper of this repository.

The `send_notification` function is embedded from
`src/wagtail/wagtailadmin/utils.py`.  The `ReferenceIndex` model itself is not
part of the source excerpt (only its test suite `test_reference_index.py` is),
so the reference-index definitions below are modelled from the specification
(`spec.md`, sections 3 and 4), as their doc comments state.
-/

namespace RefIndex

/-- Modelled from the spec: a stable type identifier ("content type id") for a
trackable type, and the identifier of a target object instance.  The
`ReferenceIndex` model class is missing from the excerpt. -/
structure Target where
  ctId : Nat
  objId : Nat
deriving DecidableEq, Repr

/-- Modelled from the spec: one row of a child collection; it has its own row
id and a list of reference-bearing fields, each possibly pointing at a target
(a null/absent foreign key is `none`). -/
structure ChildRow where
  id : Nat
  refs : List (String × Option Target)
deriving DecidableEq, Repr

/-- Modelled from the spec, section 9 ("per-type registration table mapping
type to a list of field descriptors"): a field of a source object is either a
direct reference field, a child-collection field, or a generic (type-erased)
relation carrying its own field-level indexing flag. -/
inductive FieldDescr where
  | direct (name : String) (target : Option Target)
  | childColl (name : String) (rows : List ChildRow)
  | generic (name : String) (fieldIndexed : Bool) (target : Option Target)
deriving DecidableEq, Repr

/-- Modelled from the spec: a source object instance.  `ctId` is the concrete
content type, `baseCtId` the highest-level tracked ("base") content type,
`isChildRow` whether the type is a mere child row owned via a
parent-referencing relationship (and `parentLink` its possibly-null parent
link), `modelIndexed` whether the model has opted in to indexing of generic
relations at the model level, and `fields` the object's field graph. -/
structure SourceObject where
  ctId : Nat
  baseCtId : Nat
  objId : Nat
  isChildRow : Bool
  parentLink : Option Nat
  modelIndexed : Bool
  fields : List FieldDescr
deriving DecidableEq, Repr

/-- Modelled from the spec: child-row types are not independently indexable;
their references are attributed to the owning parent object instead. -/
def model_is_indexable (obj : SourceObject) : Bool :=
  !obj.isChildRow

/-- Modelled from the spec, section 3: the persisted fields of a Reference
record (the row id and the derived `content_path_hash` are kept separately in
`StoredRow`). -/
structure RefData where
  base_content_type : Nat
  content_type : Nat
  object_id : Nat
  to_content_type : Nat
  to_object_id : Nat
  model_path : String
  content_path : String
deriving DecidableEq, Repr

/-- Modelled from the spec: `content_path_hash` is a fixed-size hash of
`content_path` used purely as a uniqueness key for the (arbitrarily long) path
string.  The digest function itself is external; it is modelled as the path
itself, which preserves exactly its role as a collision-free key. -/
def get_content_path_hash (p : String) : String := p

/-- Modelled from the spec: build one discovered reference edge from source
object `obj` to target `t` at type-level path `mp` and instance-level path
`cp`. -/
def mkRef (obj : SourceObject) (t : Target) (mp cp : String) : RefData :=
  ⟨obj.baseCtId, obj.ctId, obj.objId, t.ctId, t.objId, mp, cp⟩

/-- Modelled from the spec, section 4.1 step 2/3: discover the references held
by one field.  A direct field with a populated target yields one edge whose
`model_path` and `content_path` are both the field name.  A child collection
named `c` yields, for each child row with id `i` and populated field `f`, an
edge with `model_path` `c.item.f` (generic placeholder `item`) and
`content_path` `c.i.f` (real row id substituted).  A generic relation yields
an edge only when the field is marked indexable and the model has not opted
out; a null target never yields an edge. -/
def discoverField (obj : SourceObject) (f : FieldDescr) : List RefData :=
  match f with
  | .direct name tgt =>
      match tgt with
      | some t => [mkRef obj t name name]
      | none => []
  | .childColl name rows =>
      rows.flatMap (fun row =>
        row.refs.flatMap (fun fr =>
          match fr.2 with
          | some t => [mkRef obj t (name ++ ".item." ++ fr.1)
                                   (name ++ "." ++ toString row.id ++ "." ++ fr.1)]
          | none => []))
  | .generic name fieldIndexed tgt =>
      if obj.modelIndexed && fieldIndexed then
        match tgt with
        | some t => [mkRef obj t name name]
        | none => []
      else []

/-- Modelled from the spec: walk the whole field graph of an indexable object;
a non-indexable object (a child-row type) contributes no references. -/
def discoverRefs (obj : SourceObject) : List RefData :=
  if model_is_indexable obj then obj.fields.flatMap (discoverField obj) else []

/-- Modelled from the spec: a persisted reference row — a primary key, the
reference data, and the stored `content_path_hash` column. -/
structure StoredRow where
  pk : Nat
  data : RefData
  content_path_hash : String
deriving DecidableEq, Repr

/-- The source-identity triple `(base_content_type, content_type, object_id)`
of a source object. -/
def tripleOf (obj : SourceObject) : Nat × Nat × Nat :=
  (obj.baseCtId, obj.ctId, obj.objId)

/-- The source-identity triple stored on a reference row. -/
def rowTriple (r : StoredRow) : Nat × Nat × Nat :=
  (r.data.base_content_type, r.data.content_type, r.data.object_id)

/-- Whether a stored row belongs to the given source object's identity
triple. -/
def rowMatchesObj (obj : SourceObject) (r : StoredRow) : Bool :=
  decide (rowTriple r = tripleOf obj)

/-- The hashes of the references currently discoverable on `obj`. -/
def newHashes (obj : SourceObject) : List String :=
  (discoverRefs obj).map (fun d => get_content_path_hash d.content_path)

/-- Modelled from the spec, section 4.1 step 4: diff the discovered references
against the stored rows for this object's identity triple, keyed by
`content_path_hash`.  Rows whose hash matches a discovered reference are kept
untouched (same primary key); discovered references with no stored hash are
inserted with fresh primary keys starting at `nextPk`; stored rows of the
triple whose hash matches nothing discovered are deleted.  Rows of other
source objects are never touched. -/
def create_or_update_for_object (obj : SourceObject) (db : List StoredRow)
    (nextPk : Nat) : List StoredRow × Nat :=
  let discovered := discoverRefs obj
  let nh := newHashes obj
  let existingHashes := (db.filter (rowMatchesObj obj)).map (fun r => r.content_path_hash)
  let kept := db.filter (fun r => !rowMatchesObj obj r || decide (r.content_path_hash ∈ nh))
  let toInsert := discovered.filter
      (fun d => decide (get_content_path_hash d.content_path ∉ existingHashes))
  let inserted := (List.enumFrom nextPk toInsert).map
      (fun p => StoredRow.mk p.1 p.2 (get_content_path_hash p.2.content_path))
  (kept ++ inserted, nextPk + toInsert.length)

/-- Modelled from the spec: return the stored rows whose source identity
matches `obj`'s base type, content type and id.  Pure read. -/
def get_references_for_object (obj : SourceObject) (db : List StoredRow) :
    List StoredRow :=
  db.filter (rowMatchesObj obj)

/-- Modelled from the spec: `get_references_to` given a content object
instance — rows whose target type and target id both match. -/
def get_references_to_instance (t : Target) (db : List StoredRow) :
    List StoredRow :=
  db.filter (fun r =>
    decide (r.data.to_content_type = t.ctId ∧ r.data.to_object_id = t.objId))

/-- Modelled from the spec: `get_references_to` given a bare type descriptor —
rows whose `to_content_type` equals that type, regardless of
`to_object_id`. -/
def get_references_to_type (ct : Nat) (db : List StoredRow) : List StoredRow :=
  db.filter (fun r => decide (r.data.to_content_type = ct))

/-- Modelled from the spec: the indexing performed when an object is saved —
`create_or_update_for_object` runs only for objects of an indexable type;
saving a non-indexable (child-row) object leaves the index untouched. -/
def saveObject (obj : SourceObject) (db : List StoredRow) (nextPk : Nat) :
    List StoredRow × Nat :=
  if model_is_indexable obj then create_or_update_for_object obj db nextPk
  else (db, nextPk)

/-- One step of the rebuild-all maintenance operation. -/
def rebuildStep (acc : List StoredRow × Nat) (obj : SourceObject) :
    List StoredRow × Nat :=
  create_or_update_for_object obj acc.1 acc.2

/-- Modelled from the spec, section 4.1 and 6: the `rebuild_references_index`
maintenance command iterates every registered indexable type's every instance
and re-invokes `create_or_update_for_object`; at verbosity 0 it writes nothing
to standard output.  The second component is the text emitted on standard
output. -/
def rebuild_references_index (verbosity : Nat) (objs : List SourceObject)
    (db : List StoredRow) (nextPk : Nat) : (List StoredRow × Nat) × String :=
  (objs.foldl rebuildStep (db, nextPk),
   if verbosity = 0 then "" else "Rebuilding reference index\n")

end RefIndex

namespace Notify

/-- A user profile, as consulted by
`getattr(UserProfile.get_for_user(recipient), notification + '_notifications')`
in `src/wagtail/wagtailadmin/utils.py`. -/
structure UserProfile where
  submitted_notifications : Bool
  rejected_notifications : Bool
  approved_notifications : Bool
deriving DecidableEq, Repr

/-- A user, with primary key, email address (the empty string standing for a
missing address, which is falsy in the source) and notification profile. -/
structure User where
  pk : Nat
  email : String
  profile : UserProfile
deriving DecidableEq, Repr

/-- The profile flag looked up as `notification + '_notifications'` on the
recipient's profile (`utils.py` line 181-184). -/
def profileAllows (p : UserProfile) (notification : String) : Bool :=
  if notification = "submitted" then p.submitted_notifications
  else if notification = "rejected" then p.rejected_notifications
  else p.approved_notifications

/-- The `email_recipients` list comprehension of `send_notification`
(`utils.py` lines 179-185): keep recipients who have an email address, are not
the excluded user, and whose profile enables this notification type. -/
def eligible_recipients (recipients : List User) (notification : String)
    (excluded_user_id : Option Nat) : List User :=
  recipients.filter (fun r =>
    decide (r.email ≠ "") && decide (excluded_user_id ≠ some r.pk) &&
      profileAllows r.profile notification)

/-- The send loop of `send_notification` (`utils.py` lines 187-226): with no
eligible recipients return `True` at once; otherwise attempt each send in
turn, a failed send being caught, logged and skipped, and return whether the
number of successful sends equals the number of eligible recipients.
`sendOk r` models whether rendering and sending the email to `r` completed
without raising. -/
def send_loop (email_recipients : List User) (sendOk : User → Bool) : Bool :=
  if email_recipients = [] then true
  else
    let sent_count := email_recipients.foldl (fun c r => if sendOk r then c + 1 else c) 0
    decide (sent_count = email_recipients.length)

/-- `send_notification` from `src/wagtail/wagtailadmin/utils.py` lines
164-226.  `publishers` stands for the result of
`users_with_page_permission(revision.page, 'publish')` and `submitter` for
`revision.user`; an unrecognised notification type returns `False` before any
recipient is computed. -/
def send_notification (publishers : List User) (submitter : User)
    (notification : String) (excluded_user_id : Option Nat)
    (sendOk : User → Bool) : Bool :=
  if notification = "submitted" then
    send_loop (eligible_recipients publishers notification excluded_user_id) sendOk
  else if notification = "rejected" ∨ notification = "approved" then
    send_loop (eligible_recipients [submitter] notification excluded_user_id) sendOk
  else false

end Notify

namespace RefIndex

/-- Fixture mirroring the test suite's event page: content type 2 (base
content type 1), one direct `feed_image` reference to image 10 (image content
type 3) and a `carousel_items` collection of three rows referencing images
11, 12 and 11. -/
def eventPageFx : SourceObject :=
  { ctId := 2, baseCtId := 1, objId := 4, isChildRow := false,
    parentLink := none, modelIndexed := true,
    fields :=
      [FieldDescr.direct "feed_image" (some ⟨3, 10⟩),
       FieldDescr.childColl "carousel_items"
         [⟨1, [("image", some ⟨3, 11⟩)]⟩,
          ⟨2, [("image", some ⟨3, 12⟩)]⟩,
          ⟨3, [("image", some ⟨3, 11⟩)]⟩]] }

/-- The same object seen through its base `Page` type view: same object id and
base content type, but the concrete content type is the base type and none of
the derived type's reference fields are visible. -/
def eventPageBaseViewFx : SourceObject :=
  { ctId := 1, baseCtId := 1, objId := 4, isChildRow := false,
    parentLink := none, modelIndexed := true, fields := [] }

/-- The stored reference rows created by indexing `eventPageFx` into an empty
table with primary keys from 1. -/
def eventPageDbFx : List StoredRow :=
  (create_or_update_for_object eventPageFx [] 1).1

/-- Fixture mirroring `ModelWithNullableParentalKey`: a child-row type whose
parent link is null, holding a rich-text pointer at the event page. -/
def orphanChildFx : SourceObject :=
  { ctId := 7, baseCtId := 7, objId := 9, isChildRow := true,
    parentLink := none, modelIndexed := true,
    fields := [FieldDescr.direct "content" (some ⟨1, 4⟩)] }

/-- Fixture mirroring `GenericSnippetNoIndexPage`: the model has opted out of
generic-relation indexing at the model level, yet its generic relation is
populated with the event page. -/
def genericNoIndexFx : SourceObject :=
  { ctId := 5, baseCtId := 1, objId := 6, isChildRow := false,
    parentLink := none, modelIndexed := false,
    fields := [FieldDescr.generic "snippet_content_object" true (some ⟨1, 4⟩)] }

/-- Schema invariant of the stored table: every row's `content_path_hash`
column is the hash of its `content_path`. -/
def RowHashesWellFormed (db : List StoredRow) : Prop :=
  ∀ r ∈ db, r.content_path_hash = get_content_path_hash r.data.content_path

/-- Stored rows of `obj` whose content path is also discovered carry the same
reference data as the discovered reference at that path. -/
def MatchedRowsAgree (obj : SourceObject) (db : List StoredRow) : Prop :=
  ∀ r ∈ db, rowMatchesObj obj r = true →
    ∀ d ∈ discoverRefs obj, r.data.content_path = d.content_path → r.data = d

/-- The claimed behaviour of the `create_or_update_for_object` diff for `obj`
on table `db` with fresh primary keys from `n`: hash-matched stored rows kept
with identical primary key, unmatched stored rows deleted, discovered
references without a matching stored hash inserted, and afterwards the data of
the rows returned by `get_references_for_object` is exactly the discoverable
set. -/
def DiffCorrect (obj : SourceObject) (db : List StoredRow) (n : Nat) : Prop :=
  (∀ r ∈ db, rowMatchesObj obj r = true →
      r.content_path_hash ∈ newHashes obj →
      r ∈ (create_or_update_for_object obj db n).1) ∧
  (∀ r ∈ db, rowMatchesObj obj r = true →
      r.content_path_hash ∉ newHashes obj →
      r ∉ (create_or_update_for_object obj db n).1) ∧
  (∀ d ∈ discoverRefs obj,
      ∃ r ∈ (create_or_update_for_object obj db n).1,
        rowMatchesObj obj r = true ∧ r.data = d) ∧
  (∀ x, x ∈ (get_references_for_object obj
        (create_or_update_for_object obj db n).1).map (fun r => r.data) ↔
      x ∈ discoverRefs obj)

/-- The stored rows for `obj`'s identity triple carry exactly the hashes of
the references currently discoverable on `obj`. -/
def HashesConverged (obj : SourceObject) (db : List StoredRow) : Prop :=
  ∀ h, (∃ r ∈ db.filter (rowMatchesObj obj), r.content_path_hash = h) ↔
    h ∈ newHashes obj

end RefIndex

namespace Notify

/-- A concrete user fixture: the submitter of a revision. -/
def submitterFx : User :=
  { pk := 1, email := "submitter@example.com",
    profile := { submitted_notifications := true, rejected_notifications := true,
                 approved_notifications := true } }

/-- A concrete user fixture: a publisher with no email address. -/
def publisherNoEmailFx : User :=
  { pk := 2, email := "",
    profile := { submitted_notifications := true, rejected_notifications := true,
                 approved_notifications := true } }

end Notify

namespace RefIndex

/-- Mirror of the `test_update` scenario: the event page's stored rows plus a
spurious stored row for a `hero_image` field that does not exist on the
object. -/
def updateDbFx : List StoredRow :=
  eventPageDbFx ++
    [⟨99, ⟨1, 2, 4, 3, 11, "hero_image", "hero_image"⟩, "hero_image"⟩]

/-- An object whose direct `feed_image` field currently points at image 12. -/
def staleTargetObjFx : SourceObject :=
  { ctId := 2, baseCtId := 1, objId := 4, isChildRow := false,
    parentLink := none, modelIndexed := true,
    fields := [FieldDescr.direct "feed_image" (some ⟨3, 12⟩)] }

/-- A stored table holding, for that same object, a stale `feed_image` row
still pointing at image 10: the content path (hence its hash) is unchanged,
only the target differs. -/
def staleTargetDbFx : List StoredRow :=
  [⟨1, ⟨1, 2, 4, 3, 10, "feed_image", "feed_image"⟩, "feed_image"⟩]

/-- An object whose direct `feed_image` field currently points at image 22,
used with `rebuildStaleDbFx` for the rebuild analysis. -/
def rebuildStaleObjFx : SourceObject :=
  { ctId := 12, baseCtId := 11, objId := 14, isChildRow := false,
    parentLink := none, modelIndexed := true,
    fields := [FieldDescr.direct "feed_image" (some ⟨13, 22⟩)] }

/-- A stale stored row for `rebuildStaleObjFx` still pointing at image 20
under the unchanged content path `feed_image`. -/
def rebuildStaleDbFx : List StoredRow :=
  [⟨3, ⟨11, 12, 14, 13, 20, "feed_image", "feed_image"⟩, "feed_image"⟩]

end RefIndex

namespace RefIndex

/-- Every reference discovered on a field of `obj` is a `mkRef` of `obj`. -/
theorem discoverField_shape (obj : SourceObject) (f : FieldDescr) (d : RefData)
    (hd : d ∈ discoverField obj f) : ∃ t mp cp, d = mkRef obj t mp cp := by
  cases f with
  | direct name tgt =>
    cases tgt with
    | none => simp [discoverField] at hd
    | some t =>
      simp only [discoverField, List.mem_singleton] at hd
      exact ⟨t, name, name, hd⟩
  | childColl name rows =>
    simp only [discoverField, List.mem_flatMap] at hd
    obtain ⟨row, _hrow, hd⟩ := hd
    obtain ⟨fr, _hfr, hd⟩ := hd
    cases h2 : fr.2 with
    | none => rw [h2] at hd; simp at hd
    | some t =>
      rw [h2] at hd
      simp only [List.mem_singleton] at hd
      exact ⟨t, _, _, hd⟩
  | generic name fieldIndexed tgt =>
    by_cases hi : (obj.modelIndexed && fieldIndexed) = true
    · cases tgt with
      | none => simp [discoverField, hi] at hd
      | some t =>
        simp only [discoverField, hi, if_true, List.mem_singleton] at hd
        exact ⟨t, name, name, hd⟩
    · simp [discoverField, hi] at hd

/-- Discovered references carry the discovering object's identity triple. -/
theorem discoverRefs_triple (obj : SourceObject) (d : RefData)
    (hd : d ∈ discoverRefs obj) :
    d.base_content_type = obj.baseCtId ∧ d.content_type = obj.ctId ∧
      d.object_id = obj.objId := by
  unfold discoverRefs at hd
  split at hd
  · obtain ⟨f, _, hdf⟩ := List.mem_flatMap.mp hd
    obtain ⟨t, mp, cp, rfl⟩ := discoverField_shape obj f d hdf
    exact ⟨rfl, rfl, rfl⟩
  · simp at hd

/-- A stored row whose data was discovered on `obj` belongs to `obj`'s
identity triple. -/
theorem rowMatchesObj_of_discovered (obj : SourceObject) (r : StoredRow)
    (hd : r.data ∈ discoverRefs obj) : rowMatchesObj obj r = true := by
  obtain ⟨h1, h2, h3⟩ := discoverRefs_triple obj r.data hd
  simp [rowMatchesObj, rowTriple, tripleOf, h1, h2, h3]

/-- The data of the rows inserted for a list of discovered references is that
list itself. -/
theorem inserted_map_data (n : Nat) (l : List RefData) :
    ((List.enumFrom n l).map
        (fun p => StoredRow.mk p.1 p.2 (get_content_path_hash p.2.content_path))).map
      (fun r => r.data) = l := by
  rw [List.map_map]
  have hc : ((fun r : StoredRow => r.data) ∘
      (fun p : Nat × RefData =>
        StoredRow.mk p.1 p.2 (get_content_path_hash p.2.content_path)))
      = Prod.snd := rfl
  rw [hc, List.enumFrom_map_snd]

/-- Each inserted row stores the hash of its own content path, and its data
comes from the inserted list. -/
theorem inserted_hash_wf (n : Nat) (l : List RefData) (r : StoredRow)
    (hr : r ∈ (List.enumFrom n l).map
        (fun p => StoredRow.mk p.1 p.2 (get_content_path_hash p.2.content_path))) :
    r.content_path_hash = get_content_path_hash r.data.content_path ∧ r.data ∈ l := by
  obtain ⟨p, hp, rfl⟩ := List.mem_map.mp hr
  refine ⟨rfl, ?_⟩
  have hmem : p.2 ∈ (List.enumFrom n l).map Prod.snd := List.mem_map_of_mem Prod.snd hp
  rwa [List.enumFrom_map_snd] at hmem

/-- Rows inserted for references discovered on `o` never belong to the
identity triple of a different object `obj`. -/
theorem inserted_filter_other (obj o : SourceObject) (n : Nat) (l : List RefData)
    (hl : ∀ d ∈ l, d ∈ discoverRefs o) (hne : tripleOf o ≠ tripleOf obj) :
    ((List.enumFrom n l).map
        (fun p => StoredRow.mk p.1 p.2 (get_content_path_hash p.2.content_path))).filter
      (rowMatchesObj obj) = [] := by
  rw [List.filter_eq_nil_iff]
  intro r hr
  obtain ⟨_, hdata⟩ := inserted_hash_wf _ _ r hr
  have hdisc : r.data ∈ discoverRefs o := hl _ hdata
  obtain ⟨h1, h2, h3⟩ := discoverRefs_triple o r.data hdisc
  have htr : rowTriple r = tripleOf o := by
    simp [rowTriple, tripleOf, h1, h2, h3]
  simp only [rowMatchesObj, decide_eq_true_eq]
  intro heq
  exact hne (htr ▸ heq)

/-- Frame property of the diff: updating the index for an object with a
different identity triple leaves the rows of `obj`'s triple exactly as they
were. -/
theorem create_or_update_frame (obj o : SourceObject) (db : List StoredRow)
    (n : Nat) (hne : tripleOf o ≠ tripleOf obj) :
    (create_or_update_for_object o db n).1.filter (rowMatchesObj obj) =
      db.filter (rowMatchesObj obj) := by
  show (List.filter _ (db.filter _ ++ _)) = _
  rw [List.filter_append,
    inserted_filter_other obj o n _ (fun d hd => List.mem_of_mem_filter hd) hne,
    List.append_nil, List.filter_filter]
  refine List.filter_congr ?_
  intro a _
  by_cases hm : rowMatchesObj obj a = true
  · have hmo : rowMatchesObj o a = false := by
      simp only [rowMatchesObj, decide_eq_true_eq] at hm
      simp only [rowMatchesObj, decide_eq_false_iff_not]
      intro heq
      exact hne (by rw [← heq, hm])
    simp [hm, hmo]
  · simp only [Bool.not_eq_true] at hm
    simp [hm]

end RefIndex

namespace RefIndex

/-- Indexing into an empty table inserts exactly the discovered references,
with fresh primary keys from `n`. -/
theorem create_on_empty (obj : SourceObject) (n : Nat) :
    (create_or_update_for_object obj [] n).1 =
      (List.enumFrom n (discoverRefs obj)).map
        (fun p => StoredRow.mk p.1 p.2 (get_content_path_hash p.2.content_path)) := by
  simp [create_or_update_for_object]

/-- Reading back the references of a freshly indexed object returns exactly
the inserted rows. -/
theorem get_refs_on_fresh (obj : SourceObject) (n : Nat) :
    get_references_for_object obj (create_or_update_for_object obj [] n).1 =
      (List.enumFrom n (discoverRefs obj)).map
        (fun p => StoredRow.mk p.1 p.2 (get_content_path_hash p.2.content_path)) := by
  rw [get_references_for_object, create_on_empty]
  apply List.filter_eq_self.mpr
  intro r hr
  exact rowMatchesObj_of_discovered obj r (inserted_hash_wf _ _ r hr).2

/-- Discovery over a child collection whose rows each hold one populated
reference field yields one edge per row, with the `item` placeholder in the
`model_path` and the real row id in the `content_path`. -/
theorem discoverField_child_singletons (obj : SourceObject) (cn : String)
    (rdata : List (Nat × String × Target)) :
    discoverField obj (FieldDescr.childColl cn
      (rdata.map (fun p => ChildRow.mk p.1 [(p.2.1, some p.2.2)]))) =
    rdata.map (fun p => mkRef obj p.2.2 (cn ++ ".item." ++ p.2.1)
      (cn ++ "." ++ toString p.1 ++ "." ++ p.2.1)) := by
  induction rdata with
  | nil => rfl
  | cons a l ih =>
    simp only [discoverField, List.map_cons, List.flatMap_cons] at ih ⊢
    rw [ih]
    rfl

/-- C1: for an indexable source object with one direct reference field and a
child collection of N referencing child rows, `get_references_for_object`
after `create_or_update_for_object` returns exactly 1 + N reference edges,
the direct edge with field-name paths and, per child row, an edge whose
`model_path` uses the generic `item` placeholder and whose `content_path`
substitutes the real child row id. -/
theorem discovery_correctness (ctId baseCtId objId : Nat) (modelIndexed : Bool)
    (fn : String) (tgt : Target) (cn : String)
    (rdata : List (Nat × String × Target)) :
    let obj : SourceObject :=
      ⟨ctId, baseCtId, objId, false, none, modelIndexed,
        [FieldDescr.direct fn (some tgt),
         FieldDescr.childColl cn
           (rdata.map (fun p => ChildRow.mk p.1 [(p.2.1, some p.2.2)]))]⟩
    ((get_references_for_object obj
        (create_or_update_for_object obj [] 1).1).map (fun r => r.data)).length =
      1 + rdata.length ∧
    (get_references_for_object obj
        (create_or_update_for_object obj [] 1).1).map (fun r => r.data) =
      mkRef obj tgt fn fn ::
        rdata.map (fun p => mkRef obj p.2.2 (cn ++ ".item." ++ p.2.1)
          (cn ++ "." ++ toString p.1 ++ "." ++ p.2.1)) := by
  intro obj
  have hmap : (get_references_for_object obj
      (create_or_update_for_object obj [] 1).1).map (fun r => r.data) =
      discoverRefs obj := by
    rw [get_refs_on_fresh, inserted_map_data]
  have hdisc : discoverRefs obj =
      mkRef obj tgt fn fn ::
        rdata.map (fun p => mkRef obj p.2.2 (cn ++ ".item." ++ p.2.1)
          (cn ++ "." ++ toString p.1 ++ "." ++ p.2.1)) := by
    show (if model_is_indexable obj = true then _ else _) = _
    rw [if_pos (show model_is_indexable obj = true from rfl)]
    simp only [List.flatMap_cons, List.flatMap_nil, List.append_nil]
    rw [discoverField_child_singletons]
    rfl
  rw [hmap, hdisc]
  exact ⟨by simp [Nat.add_comm], rfl⟩

/-- C3: saving an object through its base/ancestor type view (same base
content type and object id, different concrete content type) leaves the
stored reference set of the derived-type view unchanged. -/
theorem base_type_save_preserves_references (obj objB : SourceObject)
    (db : List StoredRow) (n : Nat)
    (_hbase : objB.baseCtId = obj.baseCtId) (_hid : objB.objId = obj.objId)
    (hct : objB.ctId ≠ obj.ctId) :
    get_references_for_object obj (saveObject objB db n).1 =
      get_references_for_object obj db := by
  unfold saveObject
  split
  · unfold get_references_for_object
    refine create_or_update_frame obj objB db n ?_
    intro h
    exact hct (congrArg (fun t => t.2.1) h)
  · rfl

/-- C3 witness: saving the event page through its base `Page` view does not
change its stored references. -/
theorem base_type_save_preserves_references_witness :
    eventPageBaseViewFx.baseCtId = eventPageFx.baseCtId ∧
    eventPageBaseViewFx.objId = eventPageFx.objId ∧
    eventPageBaseViewFx.ctId ≠ eventPageFx.ctId ∧
    get_references_for_object eventPageFx
        (saveObject eventPageBaseViewFx eventPageDbFx 10).1 =
      get_references_for_object eventPageFx eventPageDbFx :=
  ⟨rfl, rfl, by decide,
   base_type_save_preserves_references eventPageFx eventPageBaseViewFx
     eventPageDbFx 10 rfl rfl (by decide)⟩

end RefIndex

namespace RefIndex

/-- A generic relation opted out at the field or at the model level discovers
nothing, whatever its target. -/
theorem discoverField_generic_optout (obj : SourceObject) (nm : String)
    (fi : Bool) (tg : Option Target)
    (h : fi = false ∨ obj.modelIndexed = false) :
    discoverField obj (FieldDescr.generic nm fi tg) = [] := by
  rcases h with h | h
  · subst h
    simp [discoverField]
  · simp [discoverField, h]

/-- C4: an object whose generic relation field is excluded at the field level,
or whose model is excluded at the model level, never produces a reference row
for that field even when the relation is populated; consequently, when all of
the object's fields are such generic relations, `get_references_to` for the
target still returns zero rows after indexing the object. -/
theorem generic_optout_no_reference (obj : SourceObject) (name : String)
    (fieldIndexed : Bool) (tgt : Option Target) (t : Target)
    (db : List StoredRow) (n : Nat)
    (hopt : fieldIndexed = false ∨ obj.modelIndexed = false)
    (hall : ∀ f ∈ obj.fields, ∃ nm fi tg, f = FieldDescr.generic nm fi tg ∧
        (fi = false ∨ obj.modelIndexed = false))
    (hempty : get_references_to_instance t db = []) :
    discoverField obj (FieldDescr.generic name fieldIndexed tgt) = [] ∧
    get_references_to_instance t (create_or_update_for_object obj db n).1 = [] := by
  refine ⟨discoverField_generic_optout obj name fieldIndexed tgt hopt, ?_⟩
  have hdisc : discoverRefs obj = [] := by
    unfold discoverRefs
    split
    · rw [List.flatMap_eq_nil_iff]
      intro f hf
      obtain ⟨nm, fi, tg, rfl, hx⟩ := hall f hf
      exact discoverField_generic_optout obj nm fi tg hx
    · rfl
  have hres : (create_or_update_for_object obj db n).1 =
      db.filter (fun r =>
        !rowMatchesObj obj r || decide (r.content_path_hash ∈ newHashes obj)) := by
    show _ ++ _ = _
    rw [hdisc]
    simp
  rw [hres]
  unfold get_references_to_instance at hempty ⊢
  rw [List.filter_filter]
  rw [List.filter_eq_nil_iff] at hempty ⊢
  intro a ha hcontra
  rw [Bool.and_eq_true] at hcontra
  exact hempty a ha hcontra.1

/-- C4 witness: the model-level opted-out page with a populated generic
relation to the event page yields no reference rows. -/
theorem generic_optout_no_reference_witness :
    (true = false ∨ genericNoIndexFx.modelIndexed = false) ∧
    (get_references_to_instance ⟨1, 4⟩ ([] : List StoredRow) = []) ∧
    (discoverField genericNoIndexFx
        (FieldDescr.generic "snippet_content_object" true (some ⟨1, 4⟩)) = [] ∧
      get_references_to_instance ⟨1, 4⟩
        (create_or_update_for_object genericNoIndexFx [] 1).1 = []) :=
  ⟨Or.inr rfl, rfl,
   generic_optout_no_reference genericNoIndexFx "snippet_content_object" true
     (some ⟨1, 4⟩) ⟨1, 4⟩ [] 1 (Or.inr rfl)
     (by
       intro f hf
       simp only [genericNoIndexFx, List.mem_singleton] at hf
       exact ⟨"snippet_content_object", true, some ⟨1, 4⟩, hf, Or.inr rfl⟩)
     rfl⟩

/-- C5: a child-row object (a type owned via a parent-referencing
relationship, hence not independently indexable) saved with a null parent
link records zero references, even though its fields point at other
objects. -/
theorem orphan_child_row_no_references (obj : SourceObject)
    (db : List StoredRow) (n : Nat)
    (hchild : obj.isChildRow = true) (_hparent : obj.parentLink = none) :
    saveObject obj db n = (db, n) ∧ discoverRefs obj = [] := by
  constructor
  · simp [saveObject, model_is_indexable, hchild]
  · simp [discoverRefs, model_is_indexable, hchild]

/-- C5 witness: the orphan child-row fixture holding a pointer at the event
page contributes nothing to the index. -/
theorem orphan_child_row_no_references_witness :
    orphanChildFx.isChildRow = true ∧ orphanChildFx.parentLink = none ∧
      (saveObject orphanChildFx [] 1 = ([], 1) ∧ discoverRefs orphanChildFx = []) :=
  ⟨rfl, rfl,
   orphan_child_row_no_references orphanChildFx [] 1 rfl rfl⟩

/-- C6: `get_references_to` on a content object instance returns exactly the
stored rows whose target type and target id both match, and on a bare type
descriptor exactly the rows whose `to_content_type` equals that type,
regardless of `to_object_id`. -/
theorem get_references_to_characterisation (db : List StoredRow) (t : Target)
    (ct : Nat) (r : StoredRow) :
    (r ∈ get_references_to_instance t db ↔
      r ∈ db ∧ r.data.to_content_type = t.ctId ∧ r.data.to_object_id = t.objId) ∧
    (r ∈ get_references_to_type ct db ↔ r ∈ db ∧ r.data.to_content_type = ct) := by
  constructor
  · simp [get_references_to_instance, List.mem_filter, and_assoc]
  · simp [get_references_to_type, List.mem_filter]

end RefIndex

namespace RefIndex

/-- The hash of a discovered reference's content path is a discovered hash. -/
theorem mem_newHashes (obj : SourceObject) (d : RefData)
    (hd : d ∈ discoverRefs obj) :
    get_content_path_hash d.content_path ∈ newHashes obj :=
  List.mem_map_of_mem _ hd

/-- A discovered hash is the hash of some discovered reference. -/
theorem newHashes_mem (obj : SourceObject) (h : String)
    (hh : h ∈ newHashes obj) :
    ∃ d ∈ discoverRefs obj, get_content_path_hash d.content_path = h :=
  List.mem_map.mp hh

/-- A stored row that is outside the object's triple, or whose hash is among
the discovered hashes, survives the diff untouched. -/
theorem mem_result_of_kept (obj : SourceObject) (db : List StoredRow) (n : Nat)
    (r : StoredRow) (hr : r ∈ db)
    (hk : rowMatchesObj obj r = false ∨ r.content_path_hash ∈ newHashes obj) :
    r ∈ (create_or_update_for_object obj db n).1 := by
  apply List.mem_append_left
  refine List.mem_filter.mpr ⟨hr, ?_⟩
  rcases hk with hk | hk
  · simp [hk]
  · simp [hk]

/-- Case analysis of membership in the diff result: either a kept stored row,
or a freshly inserted row for a discovered reference whose hash was absent
from the object's stored rows. -/
theorem mem_result_cases (obj : SourceObject) (db : List StoredRow) (n : Nat)
    (r : StoredRow) (hr : r ∈ (create_or_update_for_object obj db n).1) :
    (r ∈ db ∧ (rowMatchesObj obj r = false ∨ r.content_path_hash ∈ newHashes obj)) ∨
    (r.content_path_hash = get_content_path_hash r.data.content_path ∧
      r.data ∈ discoverRefs obj ∧
      ∀ r0 ∈ db, rowMatchesObj obj r0 = true →
        r0.content_path_hash ≠ get_content_path_hash r.data.content_path) := by
  rcases List.mem_append.mp hr with h | h
  · left
    have hmem := List.mem_filter.mp h
    refine ⟨hmem.1, ?_⟩
    have hp := hmem.2
    rw [Bool.or_eq_true] at hp
    rcases hp with hp | hp
    · left
      rwa [Bool.not_eq_true'] at hp
    · right
      exact of_decide_eq_true hp
  · right
    obtain ⟨hhash, hdata⟩ := inserted_hash_wf _ _ r h
    have hfil := List.mem_filter.mp hdata
    refine ⟨hhash, List.mem_of_mem_filter hdata, ?_⟩
    have hnot := of_decide_eq_true hfil.2
    intro r0 hr0 hm0 heq
    exact hnot (List.mem_map.mpr ⟨r0, List.mem_filter.mpr ⟨hr0, hm0⟩, heq⟩)

/-- A discovered reference whose hash appears on no stored row of the
object's triple shows up among the inserted rows. -/
theorem mem_result_of_new (obj : SourceObject) (db : List StoredRow) (n : Nat)
    (d : RefData) (hd : d ∈ discoverRefs obj)
    (hnew : ∀ r0 ∈ db, rowMatchesObj obj r0 = true →
      r0.content_path_hash ≠ get_content_path_hash d.content_path) :
    ∃ r ∈ (create_or_update_for_object obj db n).1,
      r.data = d ∧ r.content_path_hash = get_content_path_hash d.content_path := by
  have hins : d ∈ (discoverRefs obj).filter
      (fun x => decide (get_content_path_hash x.content_path ∉
        (db.filter (rowMatchesObj obj)).map (fun r => r.content_path_hash))) := by
    refine List.mem_filter.mpr ⟨hd, decide_eq_true ?_⟩
    intro hmem
    obtain ⟨r0, hr0, heq⟩ := List.mem_map.mp hmem
    have h1 := List.mem_filter.mp hr0
    exact hnew r0 h1.1 h1.2 heq
  have hmm : d ∈ ((List.enumFrom n ((discoverRefs obj).filter
      (fun x => decide (get_content_path_hash x.content_path ∉
        (db.filter (rowMatchesObj obj)).map (fun r => r.content_path_hash))))).map
      (fun p => StoredRow.mk p.1 p.2 (get_content_path_hash p.2.content_path))).map
      (fun r => r.data) := by
    rw [inserted_map_data]
    exact hins
  obtain ⟨r, hrmem, hrd⟩ := List.mem_map.mp hmm
  refine ⟨r, List.mem_append_right _ hrmem, hrd, ?_⟩
  rw [(inserted_hash_wf _ _ r hrmem).1, hrd]

/-- Every discovered reference is present in the diff result on a row of the
object's triple, when the stored table is well-formed and hash-matched rows
agree with discovery. -/
theorem diff_ins_aux (obj : SourceObject) (db : List StoredRow) (n : Nat)
    (hwf : RowHashesWellFormed db) (hagree : MatchedRowsAgree obj db) :
    ∀ d ∈ discoverRefs obj,
      ∃ r ∈ (create_or_update_for_object obj db n).1,
        rowMatchesObj obj r = true ∧ r.data = d := by
  intro d hd
  by_cases hex : ∃ r0 ∈ db, rowMatchesObj obj r0 = true ∧
      r0.content_path_hash = get_content_path_hash d.content_path
  · obtain ⟨r0, hr0, hm0, hh0⟩ := hex
    refine ⟨r0, mem_result_of_kept obj db n r0 hr0
      (Or.inr (by rw [hh0]; exact mem_newHashes obj d hd)), hm0, ?_⟩
    have hcp : r0.data.content_path = d.content_path := by
      have hw := hwf r0 hr0
      rw [hw] at hh0
      exact hh0
    exact hagree r0 hr0 hm0 d hd hcp
  · push_neg at hex
    obtain ⟨r, hrmem, hrd, _⟩ := mem_result_of_new obj db n d hd hex
    exact ⟨r, hrmem, rowMatchesObj_of_discovered obj r (hrd ▸ hd), hrd⟩

/-- C2 (amended): the diff keeps hash-matched stored rows untouched with the
same primary key, deletes stored rows of the triple whose hash matches no
discovered reference, inserts every discovered reference, and — provided the
stored hashes are well-formed and hash-matched rows agree with discovery —
the data of the stored rows afterwards is exactly the discoverable set. -/
theorem create_or_update_diff_correct (obj : SourceObject)
    (db : List StoredRow) (n : Nat)
    (hwf : RowHashesWellFormed db) (hagree : MatchedRowsAgree obj db) :
    DiffCorrect obj db n := by
  refine ⟨?_, ?_, diff_ins_aux obj db n hwf hagree, ?_⟩
  · intro r hr _hm hin
    exact mem_result_of_kept obj db n r hr (Or.inr hin)
  · intro r hr hm hnin hcontra
    rcases mem_result_cases obj db n r hcontra with ⟨_, hk⟩ | ⟨hh, hdisc, _⟩
    · rcases hk with hk | hk
      · rw [hm] at hk
        cases hk
      · exact hnin hk
    · apply hnin
      rw [hh]
      exact mem_newHashes obj r.data hdisc
  · intro x
    constructor
    · intro hx
      obtain ⟨r, hrmem, hrd⟩ := List.mem_map.mp hx
      have hrfil := List.mem_filter.mp hrmem
      rcases mem_result_cases obj db n r hrfil.1 with ⟨hrdb, hk⟩ | ⟨_, hdisc, _⟩
      · rcases hk with hk | hk
        · rw [hrfil.2] at hk
          cases hk
        · obtain ⟨d, hd, hdh⟩ := newHashes_mem obj _ hk
          have hcp : r.data.content_path = d.content_path := by
            have hw := hwf r hrdb
            exact (hdh.trans hw).symm
          have hrd2 := hagree r hrdb hrfil.2 d hd hcp
          rw [← hrd, hrd2]
          exact hd
      · rw [← hrd]
        exact hdisc
    · intro hx
      obtain ⟨r, hrmem, hm, hrd⟩ := diff_ins_aux obj db n hwf hagree x hx
      exact List.mem_map.mpr ⟨r, List.mem_filter.mpr ⟨hrmem, hm⟩, hrd⟩

/-- C2 counterexample: with a stale stored row whose content path is unchanged
but whose target differs from the currently discoverable one, the hash-keyed
diff keeps the stale row untouched, so afterwards the stored set is not the
discoverable set. -/
theorem hash_keyed_diff_stale_target_cex :
    ∃ r ∈ (create_or_update_for_object staleTargetObjFx staleTargetDbFx 5).1,
      rowMatchesObj staleTargetObjFx r = true ∧
        r.data ∉ discoverRefs staleTargetObjFx := by
  decide

/-- C2 witness: the `test_update` scenario — the event page's stored rows plus
a spurious `hero_image` row satisfy the hypotheses, and the diff then behaves
as claimed. -/
theorem create_or_update_diff_correct_witness :
    RowHashesWellFormed updateDbFx ∧ MatchedRowsAgree eventPageFx updateDbFx ∧
      DiffCorrect eventPageFx updateDbFx 100 :=
  ⟨by unfold RowHashesWellFormed; decide, by unfold MatchedRowsAgree; decide,
   create_or_update_diff_correct eventPageFx updateDbFx 100
     (by unfold RowHashesWellFormed; decide) (by unfold MatchedRowsAgree; decide)⟩

end RefIndex

namespace RefIndex

/-- After running the diff for `obj`, the stored hashes of `obj`'s triple are
exactly the discovered hashes, whatever the starting table. -/
theorem hashesConverged_post (obj : SourceObject) (db : List StoredRow)
    (n : Nat) :
    HashesConverged obj (create_or_update_for_object obj db n).1 := by
  unfold HashesConverged
  intro h
  constructor
  · rintro ⟨r, hrf, rfl⟩
    have hrm := List.mem_filter.mp hrf
    rcases mem_result_cases obj db n r hrm.1 with ⟨_, hk⟩ | ⟨hh, hdisc, _⟩
    · rcases hk with hk | hk
      · rw [hrm.2] at hk
        cases hk
      · exact hk
    · rw [hh]
      exact mem_newHashes obj r.data hdisc
  · intro hh
    obtain ⟨d, hd, hdh⟩ := newHashes_mem obj h hh
    by_cases hex : ∃ r0 ∈ db, rowMatchesObj obj r0 = true ∧
        r0.content_path_hash = get_content_path_hash d.content_path
    · obtain ⟨r0, hr0, hm0, hh0⟩ := hex
      refine ⟨r0, List.mem_filter.mpr
        ⟨mem_result_of_kept obj db n r0 hr0 (Or.inr ?_), hm0⟩, ?_⟩
      · rw [hh0]
        exact mem_newHashes obj d hd
      · rw [hh0, hdh]
    · push_neg at hex
      obtain ⟨r, hrmem, hrd, hrh⟩ := mem_result_of_new obj db n d hd hex
      refine ⟨r, List.mem_filter.mpr
        ⟨hrmem, rowMatchesObj_of_discovered obj r (hrd ▸ hd)⟩, ?_⟩
      rw [hrh, hdh]

/-- Updating the index for an object of a different identity triple preserves
hash convergence for `obj`. -/
theorem hashesConverged_frame (obj o : SourceObject) (db : List StoredRow)
    (n : Nat) (hne : tripleOf o ≠ tripleOf obj)
    (hc : HashesConverged obj db) :
    HashesConverged obj (create_or_update_for_object o db n).1 := by
  unfold HashesConverged at hc ⊢
  intro h
  rw [create_or_update_frame obj o db n hne]
  exact hc h

/-- On a table whose rows for `obj`'s triple already carry exactly the
discovered hashes, the diff is a no-op: nothing is deleted and nothing is
inserted. -/
theorem create_or_update_stable (obj : SourceObject) (db : List StoredRow)
    (n : Nat) (hc : HashesConverged obj db) :
    create_or_update_for_object obj db n = (db, n) := by
  unfold HashesConverged at hc
  have hkept : db.filter (fun r =>
      !rowMatchesObj obj r || decide (r.content_path_hash ∈ newHashes obj)) = db := by
    apply List.filter_eq_self.mpr
    intro r hr
    by_cases hm : rowMatchesObj obj r = true
    · have hin : r.content_path_hash ∈ newHashes obj :=
        (hc r.content_path_hash).mp ⟨r, List.mem_filter.mpr ⟨hr, hm⟩, rfl⟩
      simp [hin]
    · rw [Bool.not_eq_true] at hm
      simp [hm]
  have htoi : (discoverRefs obj).filter
      (fun d => decide (get_content_path_hash d.content_path ∉
        (db.filter (rowMatchesObj obj)).map (fun r => r.content_path_hash))) = [] := by
    rw [List.filter_eq_nil_iff]
    intro d hd
    have hmemmap : get_content_path_hash d.content_path ∈
        (db.filter (rowMatchesObj obj)).map (fun r => r.content_path_hash) := by
      obtain ⟨r, hrf, hrh⟩ :=
        (hc (get_content_path_hash d.content_path)).mpr (mem_newHashes obj d hd)
      exact List.mem_map.mpr ⟨r, hrf, hrh⟩
    simp [hmemmap]
  show (_ ++ _, _) = (db, n)
  rw [hkept, htoi]
  simp

/-- Hash convergence for `obj` is preserved by a whole rebuild pass over
objects whose triples all differ from `obj`'s. -/
theorem hashesConverged_fold (obj : SourceObject) (objs : List SourceObject)
    (st : List StoredRow × Nat)
    (hne : ∀ o ∈ objs, tripleOf o ≠ tripleOf obj)
    (hc : HashesConverged obj st.1) :
    HashesConverged obj (objs.foldl rebuildStep st).1 := by
  induction objs generalizing st with
  | nil => exact hc
  | cons o rest ih =>
    simp only [List.foldl_cons]
    refine ih (rebuildStep st o) (fun x hx => hne x (List.mem_cons_of_mem o hx)) ?_
    exact hashesConverged_frame obj o st.1 st.2 (hne o (List.mem_cons_self o rest)) hc

/-- One rebuild pass over pairwise-distinct objects leaves every object's
stored hashes converged to its discovered hashes. -/
theorem rebuild_establishes (objs : List SourceObject)
    (st : List StoredRow × Nat)
    (hdist : objs.Pairwise (fun a b => tripleOf a ≠ tripleOf b)) :
    ∀ obj ∈ objs, HashesConverged obj (objs.foldl rebuildStep st).1 := by
  induction objs generalizing st with
  | nil =>
    intro obj h
    cases h
  | cons o rest ih =>
    intro obj hobj
    rw [List.pairwise_cons] at hdist
    simp only [List.foldl_cons]
    rcases List.mem_cons.mp hobj with rfl | hmem
    · refine hashesConverged_fold obj rest (rebuildStep st obj) ?_ ?_
      · intro x hx
        exact Ne.symm (hdist.1 x hx)
      · exact hashesConverged_post obj st.1 st.2
    · exact ih (rebuildStep st o) hdist.2 obj hmem

/-- A rebuild pass over objects that are all already converged changes
nothing at all — neither the table nor the primary-key counter. -/
theorem rebuild_stable (objs : List SourceObject) (st : List StoredRow × Nat)
    (hc : ∀ obj ∈ objs, HashesConverged obj st.1) :
    objs.foldl rebuildStep st = st := by
  induction objs generalizing st with
  | nil => rfl
  | cons o rest ih =>
    simp only [List.foldl_cons]
    have hstep : rebuildStep st o = st := by
      show create_or_update_for_object o st.1 st.2 = st
      rw [create_or_update_stable o st.1 st.2 (hc o (List.mem_cons_self o rest))]
    rw [hstep]
    exact ih st (fun obj h => hc obj (List.mem_cons_of_mem o h))

/-- C7 (amended): over instances with pairwise-distinct identity triples, the
rebuild-all operation run twice returns exactly what one run returns (the
table, the key counter and the output); one run converges each object's
stored rows to its discoverable content-path hashes; at verbosity 0 it emits
no standard output. -/
theorem rebuild_idempotent_and_silent (v : Nat) (objs : List SourceObject)
    (db : List StoredRow) (n : Nat)
    (hdist : objs.Pairwise (fun a b => tripleOf a ≠ tripleOf b)) :
    rebuild_references_index v objs
        (rebuild_references_index v objs db n).1.1
        (rebuild_references_index v objs db n).1.2 =
      rebuild_references_index v objs db n ∧
    (∀ obj ∈ objs,
      HashesConverged obj (rebuild_references_index v objs db n).1.1) ∧
    (rebuild_references_index 0 objs db n).2 = "" := by
  have h1 : ∀ obj ∈ objs, HashesConverged obj (objs.foldl rebuildStep (db, n)).1 :=
    rebuild_establishes objs (db, n) hdist
  refine ⟨?_, h1, rfl⟩
  unfold rebuild_references_index
  have h2 : objs.foldl rebuildStep
      ((objs.foldl rebuildStep (db, n)).1, (objs.foldl rebuildStep (db, n)).2) =
      ((objs.foldl rebuildStep (db, n)).1, (objs.foldl rebuildStep (db, n)).2) :=
    rebuild_stable objs _ h1
  rw [h2]

/-- C7 counterexample: one rebuild pass does not converge the stored data to
the discoverable set — a stale row whose content path is unchanged but whose
target differs survives the rebuild untouched. -/
theorem rebuild_stale_convergence_cex :
    ∃ r ∈ (rebuild_references_index 0 [rebuildStaleObjFx] rebuildStaleDbFx 5).1.1,
      rowMatchesObj rebuildStaleObjFx r = true ∧
        r.data ∉ discoverRefs rebuildStaleObjFx := by
  decide

/-- C7 witness: rebuilding over the event page and the generic snippet page
(distinct triples) twice returns exactly the result of one rebuild, and the
verbosity-0 run emits nothing. -/
theorem rebuild_idempotent_and_silent_witness :
    ([eventPageFx, genericNoIndexFx].Pairwise
        (fun a b => tripleOf a ≠ tripleOf b)) ∧
    (rebuild_references_index 1 [eventPageFx, genericNoIndexFx]
        (rebuild_references_index 1 [eventPageFx, genericNoIndexFx] [] 1).1.1
        (rebuild_references_index 1 [eventPageFx, genericNoIndexFx] [] 1).1.2 =
      rebuild_references_index 1 [eventPageFx, genericNoIndexFx] [] 1 ∧
    (∀ obj ∈ [eventPageFx, genericNoIndexFx],
      HashesConverged obj
        (rebuild_references_index 1 [eventPageFx, genericNoIndexFx] [] 1).1.1) ∧
    (rebuild_references_index 0 [eventPageFx, genericNoIndexFx] [] 1).2 = "") :=
  ⟨by decide,
   rebuild_idempotent_and_silent 1 [eventPageFx, genericNoIndexFx] [] 1 (by decide)⟩

end RefIndex

namespace Notify

/-- The send loop's counter equals the number of recipients for which the
send succeeded. -/
theorem foldl_count_eq (sendOk : User → Bool) (l : List User) (c : Nat) :
    l.foldl (fun acc r => if sendOk r then acc + 1 else acc) c =
      c + (l.filter sendOk).length := by
  induction l generalizing c with
  | nil => simp
  | cons a t ih =>
    simp only [List.foldl_cons, List.filter_cons]
    by_cases h : sendOk a = true
    · rw [if_pos h, if_pos h, ih]
      simp only [List.length_cons]
      omega
    · rw [if_neg h, if_neg h, ih]

/-- The send loop reports success exactly when every recipient's send
succeeded (vacuously so for an empty recipient list). -/
theorem send_loop_iff (l : List User) (sendOk : User → Bool) :
    send_loop l sendOk = true ↔ ∀ r ∈ l, sendOk r = true := by
  unfold send_loop
  split
  · rename_i h
    simp [h]
  · simp only [decide_eq_true_eq]
    rw [foldl_count_eq, Nat.zero_add]
    exact List.filter_length_eq_length

/-- C8: for a recognised notification type, `send_notification` swallows each
individual send failure and keeps going, and returns `True` exactly when the
number of successful sends equals the number of eligible email recipients —
that is, when every eligible recipient's send succeeded. -/
theorem send_notification_success_iff (publishers : List User)
    (submitter : User) (notification : String) (excluded_user_id : Option Nat)
    (sendOk : User → Bool)
    (hvalid : notification = "submitted" ∨ notification = "rejected" ∨
      notification = "approved") :
    (send_notification publishers submitter notification excluded_user_id
        sendOk = true ↔
      ∀ r ∈ eligible_recipients
          (if notification = "submitted" then publishers else [submitter])
          notification excluded_user_id, sendOk r = true) := by
  unfold send_notification
  rcases hvalid with h | h | h
  · rw [if_pos h, if_pos h]
    exact send_loop_iff _ _
  · have h1 : notification ≠ "submitted" := by
      rw [h]
      decide
    rw [if_neg h1, if_neg h1, if_pos (Or.inl h)]
    exact send_loop_iff _ _
  · have h1 : notification ≠ "submitted" := by
      rw [h]
      decide
    rw [if_neg h1, if_neg h1, if_pos (Or.inr h)]
    exact send_loop_iff _ _

/-- C8 witness: with two candidate publishers (one of them without an email
address) and every send succeeding, the success report is equivalent to all
eligible recipients having been sent to. -/
theorem send_notification_success_iff_witness :
    ("submitted" = "submitted" ∨ "submitted" = "rejected" ∨
      "submitted" = "approved") ∧
    (send_notification [submitterFx, publisherNoEmailFx] submitterFx
        "submitted" (some 3) (fun _ => true) = true ↔
      ∀ r ∈ eligible_recipients
          (if "submitted" = "submitted" then [submitterFx, publisherNoEmailFx]
           else [submitterFx]) "submitted" (some 3),
        (fun _ : User => true) r = true) :=
  ⟨Or.inl rfl,
   send_notification_success_iff [submitterFx, publisherNoEmailFx] submitterFx
     "submitted" (some 3) (fun _ => true) (Or.inl rfl)⟩

/-- C9: for any notification type other than `submitted`, `rejected` or
`approved`, `send_notification` returns `False` immediately. -/
theorem send_notification_unknown_type_false (publishers : List User)
    (submitter : User) (notification : String) (excluded_user_id : Option Nat)
    (sendOk : User → Bool)
    (h1 : notification ≠ "submitted") (h2 : notification ≠ "rejected")
    (h3 : notification ≠ "approved") :
    send_notification publishers submitter notification excluded_user_id
      sendOk = false := by
  unfold send_notification
  have hor : ¬(notification = "rejected" ∨ notification = "approved") := by
    rintro (h | h)
    · exact h2 h
    · exact h3 h
  rw [if_neg h1, if_neg hor]

/-- C9 witness: a `bogus` notification type yields `False`. -/
theorem send_notification_unknown_type_false_witness :
    ("bogus" : String) ≠ "submitted" ∧ ("bogus" : String) ≠ "rejected" ∧
    ("bogus" : String) ≠ "approved" ∧
    send_notification [] submitterFx "bogus" none (fun _ => true) = false :=
  ⟨by decide, by decide, by decide,
   send_notification_unknown_type_false [] submitterFx "bogus" none
     (fun _ => true) (by decide) (by decide) (by decide)⟩

/-- C10: for a recognised notification type with no eligible email recipients
after filtering, `send_notification` returns `True` without attempting any
send. -/
theorem send_notification_no_recipients_true (publishers : List User)
    (submitter : User) (notification : String) (excluded_user_id : Option Nat)
    (sendOk : User → Bool)
    (hvalid : notification = "submitted" ∨ notification = "rejected" ∨
      notification = "approved")
    (hempty : eligible_recipients
        (if notification = "submitted" then publishers else [submitter])
        notification excluded_user_id = []) :
    send_notification publishers submitter notification excluded_user_id
      sendOk = true := by
  unfold send_notification
  rcases hvalid with h | h | h
  · rw [if_pos h] at hempty
    rw [if_pos h, hempty]
    simp [send_loop]
  · have h1 : notification ≠ "submitted" := by
      rw [h]
      decide
    rw [if_neg h1] at hempty
    rw [if_neg h1, if_pos (Or.inl h), hempty]
    simp [send_loop]
  · have h1 : notification ≠ "submitted" := by
      rw [h]
      decide
    rw [if_neg h1] at hempty
    rw [if_neg h1, if_pos (Or.inr h), hempty]
    simp [send_loop]

/-- C10 witness: a `rejected` notification whose submitter has no email
address has no eligible recipients and reports vacuous success. -/
theorem send_notification_no_recipients_true_witness :
    ("rejected" = "submitted" ∨ ("rejected" : String) = "rejected" ∨
      ("rejected" : String) = "approved") ∧
    eligible_recipients
        (if ("rejected" : String) = "submitted" then []
         else [publisherNoEmailFx]) "rejected" none = [] ∧
    send_notification [] publisherNoEmailFx "rejected" none
      (fun _ => true) = true :=
  ⟨Or.inr (Or.inl rfl), by decide,
   send_notification_no_recipients_true [] publisherNoEmailFx "rejected" none
     (fun _ => true) (Or.inr (Or.inl rfl)) (by decide)⟩

end Notify
